import Mathlib

/-!
Shallow embedding of the training/evaluation orchestration core of
src/models/quartznet_asr/finetune.py: the learning-rate policies, the
checkpoint save routine, and the train() loop (gradient accumulation,
periodic evaluation, early stopping, step budget, resume).

Modelling conventions.  Python floats are modelled by exact rationals:
the literal 1e-10 is 1 / 10 ^ 10, 0.01 is 1 / 100, and
math.floor(0.1 * N) is N / 10 on naturals (these agree for all horizon
sizes that matter).  Python runtime failures are modelled by an Except
monad over PyError.  Opaque blobs (model state dicts, optimizer state
dicts) are modelled as naturals; the filesystem that torch.save writes
into is an explicit association list from paths to checkpoints.
-/

namespace QuartznetFinetune

/-- Python runtime/configuration errors relevant to the embedded code.
ZeroDivisionError is what a Python division with zero denominator
raises; unboundLocal is Python's UnboundLocalError on reading a local
variable before any assignment; configuration stands for the
ConfigurationError class named by the specification (no such class
exists anywhere in the repository). -/
inductive PyError where
  | zeroDivision : PyError
  | configuration : PyError
  | unboundLocal : String → PyError
deriving DecidableEq, Repr

/-- finetune.py lines 38-48: quadratic learning-rate decay
res = initial_lr * ((N - step) / N) ** 2; return max(res, 1e-10).
When N == 0 the Python float division raises ZeroDivisionError. -/
def lr_policy (initial_lr : ℚ) (step N : ℕ) : Except PyError ℚ :=
  let min_lr : ℚ := 1 / 10 ^ 10
  if N = 0 then Except.error PyError.zeroDivision
  else Except.ok (max (initial_lr * (((N : ℚ) - (step : ℚ)) / (N : ℚ)) ^ 2) min_lr)

/-- finetune.py lines 50-60: linear warmup followed by linear decay.
The step is 1-indexed (step += 1); warmup_steps = math.floor(0.1 * N)
is N / 10 on naturals; remaining_steps = N - warmup_steps.  A branch
whose Python division has a zero denominator raises ZeroDivisionError
(note the warmup branch is unreachable when warmup_steps = 0, because
the 1-indexed step is at least 1). -/
def warmup_decay_policy (initial_lr : ℚ) (step N : ℕ) : Except PyError ℚ :=
  let min_lr : ℚ := 1 / 10 ^ 10
  let s := step + 1
  let warmup_steps := N / 10
  let remaining_steps := N - warmup_steps
  if s ≤ warmup_steps then
    if warmup_steps = 0 then Except.error PyError.zeroDivision
    else Except.ok (initial_lr * ((s : ℚ) / (warmup_steps : ℚ)))
  else
    if remaining_steps = 0 then Except.error PyError.zeroDivision
    else Except.ok (max (initial_lr * (((N : ℚ) - (s : ℚ)) / (remaining_steps : ℚ))) min_lr)

/-- A persisted checkpoint: finetune.py lines 80-84, the dict
containing epoch, state_dict and optimizer (None when
save_optimizer is False).  State blobs are opaque naturals. -/
structure Checkpoint where
  epoch : ℕ
  state_dict : ℕ
  optimizer : Option ℕ
deriving DecidableEq, Repr

/-- The observable filesystem: the set of existing directories and the
files written by torch.save, as an association list path to content. -/
structure FS where
  dirs : List String
  files : List (String × Checkpoint)
deriving DecidableEq, Repr

/-- os.makedirs(output_dir, exist_ok=True): create the directory when
absent, change nothing when it already exists. -/
def os_makedirs (d : String) (fs : FS) : FS :=
  if d ∈ fs.dirs then fs else { fs with dirs := d :: fs.dirs }

/-- Write (or overwrite in place) the file at the given path. -/
def writeFile (path : String) (c : Checkpoint) : List (String × Checkpoint) → List (String × Checkpoint)
  | [] => [(path, c)]
  | (p, c') :: rest => if p = path then (path, c) :: rest else (p, c') :: writeFile path c rest

/-- Read the file at the given path, if present. -/
def readFile (path : String) : List (String × Checkpoint) → Option Checkpoint
  | [] => none
  | (p, c) :: rest => if p = path then some c else readFile path rest

/-- finetune.py lines 63-87: save().  rank models the distributed
state: none when torch.distributed is not initialized (sole process),
some r for distributed rank r.  The directory is created first
(exist_ok=True); the fixed file name is class_name ++ ".pt"; only the
sole process or rank 0 performs the torch.save write. -/
def save (rank : Option ℕ) (class_name : String) (model_state optimizer_state : ℕ)
    (epoch : ℕ) (output_dir : String) (save_optimizer : Bool) (fs : FS) : FS :=
  let fs1 := os_makedirs output_dir fs
  let file_name := class_name ++ ".pt"
  let ckpt : Checkpoint :=
    { epoch := epoch, state_dict := model_state,
      optimizer := if save_optimizer then some optimizer_state else none }
  if rank = none ∨ rank = some 0 then
    { fs1 with files := writeFile (output_dir ++ "/" ++ file_name) ckpt fs1.files }
  else fs1

/-- The CLI arguments and derived quantities that the train() loop
reads (finetune.py parse_args plus main()'s start_epoch /
step_per_epoch assignments, and the AMP optimization level
optim_level that main() derives from --fp16 and passes to train()).
Directory arguments are paths.  optim_level is a natural number: the
Python guard optim_level >= 0 at line 243 is then always true, which
is faithful to the two values 0 and 1 that main() produces. -/
structure Args where
  gradient_accumulation_steps : ℕ
  train_frequency : ℕ
  eval_frequency : ℕ
  save_after_each_epoch : Bool
  early_stop_patience : ℕ
  num_steps : Option ℕ
  num_epochs : ℕ
  start_epoch : ℕ
  step_per_epoch : ℕ
  output_dir : String
  best_dir : String
  optim_level : ℕ
deriving DecidableEq, Repr

/-- finetune.py lines 333-336 in main(): optim_level = 1 when --fp16
is set and 0 otherwise; these are the only optimization levels the
program ever produces. -/
def resolveOptimLevel (fp16 : Bool) : ℕ :=
  if fp16 then 1 else 0

/-- The Python locals of train() that live across iterations
(finetune.py lines 180-191 initialize them): epoch, step, patience,
prev_best_wer, prev_best_epoch_wer, and the evaluation result e_wer,
which is an unassigned local until the first eval() call (hence
Option).  eval_count counts eval() calls (used to index the ambient
sequence of evaluation WERs); saves records each save() call as
(output_dir, epoch, save_optimizer). -/
structure TrainState where
  epoch : ℕ
  step : ℕ
  patience : ℕ
  prev_best_wer : ℚ
  prev_best_epoch_wer : ℚ
  e_wer : Option ℚ
  eval_count : ℕ
  saves : List (String × ℕ × Bool)
deriving DecidableEq, Repr

/-- finetune.py lines 180-191: epoch = args.start_epoch; step = epoch *
args.step_per_epoch; patience = 0; prev_best_wer = 10000 (the
commented-out pre-evaluation leaves the sentinel); prev_best_epoch_wer
= prev_best_wer; e_wer not yet assigned. -/
def initState (args : Args) : TrainState :=
  { epoch := args.start_epoch
    step := args.start_epoch * args.step_per_epoch
    patience := 0
    prev_best_wer := 10000
    prev_best_epoch_wer := 10000
    e_wer := none
    eval_count := 0
    saves := [] }

/-- finetune.py lines 404-419 in main(): with a checkpoint loaded, the
start epoch is the checkpoint's stored epoch when --resume_from_ckpt
is set and 0 otherwise; with no checkpoint it is 0. -/
def resolveStartEpoch (ckpt : Option Checkpoint) (resume_from_ckpt : Bool) : ℕ :=
  match ckpt with
  | some c => if resume_from_ckpt then c.epoch else 0
  | none => 0

/-- finetune.py lines 280-284 and 311: the step budget test
args.num_steps is not None and step >= args.num_steps. -/
def stepsReached (numSteps : Option ℕ) (step : ℕ) : Bool :=
  match numSteps with
  | some m => m ≤ step
  | none => false

/-- Why the while-True loop of train() exited: the step-budget break
(lines 280-284), the early-stopping break (line 308), or the epoch
count break (lines 311-312). -/
inductive ExitReason where
  | stepBudget : ExitReason
  | earlyStopped : ExitReason
  | done : ExitReason
deriving DecidableEq, Repr

/-- The per-epoch locals of the micro-batch loop together with the
persistent TrainState: batch_counter and average_loss (reset at lines
198-199), a broke flag modelling the break at line 281, and two
observation logs: the value passed to each backward() call (line 248)
and, for each optimizer.step() call (line 254), the step counter at
that moment and the accumulated average_loss fed to it. -/
structure LoopState where
  ts : TrainState
  batch_counter : ℕ
  average_loss : ℚ
  broke : Bool
  backward_calls : List ℚ
  opt_events : List (ℕ × ℚ)
deriving DecidableEq, Repr

/-- Fresh per-epoch loop state: finetune.py lines 198-199. -/
def initLoopState (ts : TrainState) : LoopState :=
  { ts := ts, batch_counter := 0, average_loss := 0, broke := false,
    backward_calls := [], opt_events := [] }

/-- finetune.py lines 254-277: the body of
if batch_counter % gradient_accumulation_steps == 0, after the
optimizer step, excluding the buffer reset: the train_frequency report
(logging only, lines 257-263), the periodic evaluation (lines
265-276, guarded by step > 0, step % eval_frequency == 0 and
save_after_each_epoch == False; the prev_best_wer is None disjunct at
line 271 is unreachable because prev_best_wer is initialized to
10000), and the step increment (line 277).  evalF gives the WER
returned by successive eval() calls. -/
def optBoundary (args : Args) (evalF : ℕ → ℚ) (ts : TrainState) : TrainState :=
  let ts :=
    if 0 < ts.step ∧ ts.step % args.eval_frequency = 0 ∧ args.save_after_each_epoch = false then
      let w := evalF ts.eval_count
      let ts1 := { ts with e_wer := some w, eval_count := ts.eval_count + 1 }
      if w < ts1.prev_best_wer then
        { ts1 with prev_best_wer := w,
                   saves := ts1.saves ++ [(args.best_dir, ts1.epoch, false)] }
      else ts1
    else ts
  { ts with step := ts.step + 1 }

/-- finetune.py lines 200-281: processing of one micro-batch with loss
value loss.  The loss is divided by gradient_accumulation_steps when
that is > 1 (lines 240-241) before being added to average_loss (line
250).  Lines 243-248 guard the backward pass: when 0 <= optim_level
<= 3 the branch is pass (the amp.scale_loss backward is commented
out), so t_total_loss.backward() runs only for optim_level > 3 — a
level main() never produces; the backward-call log records exactly
the calls the program makes.  When batch_counter reaches a multiple
of gradient_accumulation_steps, the optimizer steps, the buffer
resets and the break condition of line 280 is evaluated against the
incremented step. -/
def processBatch (args : Args) (evalF : ℕ → ℚ) (loss : ℚ) (s : LoopState) : LoopState :=
  let k := args.gradient_accumulation_steps
  let t_total_loss := if 1 < k then loss / (k : ℚ) else loss
  let backward_calls :=
    if args.optim_level ≤ 3 then s.backward_calls
    else s.backward_calls ++ [t_total_loss]
  let batch_counter := s.batch_counter + 1
  let average_loss := s.average_loss + t_total_loss
  if batch_counter % k = 0 then
    let opt_events := s.opt_events ++ [(s.ts.step, average_loss)]
    let ts := optBoundary args evalF s.ts
    { ts := ts, batch_counter := 0, average_loss := 0,
      broke := stepsReached args.num_steps ts.step,
      backward_calls := backward_calls, opt_events := opt_events }
  else
    { s with batch_counter := batch_counter, average_loss := average_loss,
             backward_calls := backward_calls }

/-- finetune.py lines 200-281: the for-loop over the epoch's
micro-batches (given as their loss values); once broke is set the
remaining batches are not processed (the break at line 281). -/
def runBatches (args : Args) (evalF : ℕ → ℚ) : List ℚ → LoopState → LoopState
  | [], s => s
  | l :: rest, s =>
    if s.broke then s else runBatches args evalF rest (processBatch args evalF l s)

/-- finetune.py lines 295-308: the early-stopping block at the epoch
boundary, run on the current value w of e_wer.  Returns the updated
state and whether the early-stop break at line 308 fires.  The
prev_best_epoch_wer is None disjunct at line 295 is unreachable
(initialized to 10000), and 0.01 is exactly 1 / 100. -/
def earlyStopUpdate (args : Args) (w : ℚ) (ts : TrainState) : TrainState × Bool :=
  if w < ts.prev_best_epoch_wer + 1 / 100 then
    let ts1 := { ts with patience := 0 }
    let ts2 :=
      if w < ts1.prev_best_epoch_wer then
        let ts' := { ts1 with prev_best_epoch_wer := w }
        if args.save_after_each_epoch then
          { ts' with saves := ts'.saves ++ [(args.best_dir, ts'.epoch, false)] }
        else ts'
      else ts1
    (ts2, false)
  else
    let ts1 := { ts with patience := ts.patience + 1 }
    (ts1, args.early_stop_patience ≤ ts1.patience)

/-- finetune.py lines 285-293: the state changes at the epoch
boundary before the early-stopping block.  epoch += 1 (line 286); a
latest checkpoint with the optimizer state is saved to args.output_dir
(line 287); when save_after_each_epoch, eval() runs and assigns e_wer
(lines 289-293). -/
def epochBoundaryState (args : Args) (evalF : ℕ → ℚ) (ts0 : TrainState) : TrainState :=
  let tsA := { ts0 with epoch := ts0.epoch + 1 }
  let tsB := { tsA with saves := tsA.saves ++ [(args.output_dir, tsA.epoch, true)] }
  if args.save_after_each_epoch then
    { tsB with e_wer := some (evalF tsB.eval_count), eval_count := tsB.eval_count + 1 }
  else tsB

/-- finetune.py lines 285-312: the epoch boundary.  After the state
changes of epochBoundaryState, the early-stopping block reads e_wer,
which raises UnboundLocalError when no eval() call has ever assigned
it (line 295); the early-stop break of line 308 and the epoch-count
exit of lines 311-312 (the latter fires only when num_steps is None)
end the loop. -/
def epochEnd (args : Args) (evalF : ℕ → ℚ) (ts0 : TrainState) :
    Except PyError (TrainState × Option ExitReason) :=
  let tsC := epochBoundaryState args evalF ts0
  match tsC.e_wer with
  | none => Except.error (PyError.unboundLocal "e_wer")
  | some w =>
    let p := earlyStopUpdate args w tsC
    if p.2 then Except.ok (p.1, some ExitReason.earlyStopped)
    else if args.num_steps = none ∧ args.num_epochs ≤ p.1.epoch then
      Except.ok (p.1, some ExitReason.done)
    else Except.ok (p.1, none)

/-- finetune.py lines 193-312: the while-True loop of train(), with
fuel bounding the number of epochs attempted (none = fuel ran out).
Each iteration resets the per-epoch locals, runs the micro-batch loop
over the epoch's losses, applies the step-budget exit of lines
283-284, and otherwise runs the epoch boundary.  The final evaluation
after the loop (line 316) is logging only and not modelled. -/
def trainLoop (args : Args) (evalF : ℕ → ℚ) (batches : List ℚ) :
    ℕ → TrainState → Option (Except PyError (TrainState × ExitReason))
  | 0, _ => none
  | fuel + 1, ts =>
    let r := runBatches args evalF batches (initLoopState ts)
    if stepsReached args.num_steps r.ts.step then
      some (Except.ok (r.ts, ExitReason.stepBudget))
    else
      match epochEnd args evalF r.ts with
      | Except.error e => some (Except.error e)
      | Except.ok (ts2, some reason) => some (Except.ok (ts2, reason))
      | Except.ok (ts2, none) => trainLoop args evalF batches fuel ts2

/-- The rational payload of a learning-rate policy result (0 for an
error), used to compare policy values across steps. -/
def lrValue : Except PyError ℚ → ℚ
  | Except.ok q => q
  | Except.error _ => 0

/-- The exit reason of a completed training run, if any. -/
def runExit : Option (Except PyError (TrainState × ExitReason)) → Option ExitReason
  | some (Except.ok p) => some p.2
  | _ => none

/-- The final training state of a completed training run, if any. -/
def runFinal : Option (Except PyError (TrainState × ExitReason)) → Option TrainState
  | some (Except.ok p) => some p.1
  | _ => none

/-- The Python error a training run died with, if any. -/
def runError : Option (Except PyError (TrainState × ExitReason)) → Option PyError
  | some (Except.error e) => some e
  | _ => none

/-- The expected optimizer-step events for a window size k over a list
of micro-batch losses, starting at a given step counter: one event per
k consecutive losses, carrying the step counter at that event and the
sum of the window's k losses each divided by k. -/
def windowEvents (k step : ℕ) (losses : List ℚ) : List (ℕ × ℚ) :=
  if h : k = 0 ∨ losses.length < k then []
  else (step, ((losses.take k).map (fun l => l / (k : ℚ))).sum) ::
       windowEvents k (step + 1) (losses.drop k)
termination_by losses.length
decreasing_by
  push_neg at h
  simp only [List.length_drop]
  exact Nat.sub_lt (Nat.lt_of_lt_of_le (Nat.pos_of_ne_zero h.1) h.2) (Nat.pos_of_ne_zero h.1)

/-- Configuration of the early-stopping scenario of the specification:
per-epoch evaluation, patience 3, 4 epochs, one micro-batch per epoch. -/
def c1args : Args :=
  { gradient_accumulation_steps := 1, train_frequency := 25, eval_frequency := 200,
    save_after_each_epoch := true, early_stop_patience := 3, num_steps := none,
    num_epochs := 4, start_epoch := 0, step_per_epoch := 1,
    output_dir := "latest_dir", best_dir := "best_dir", optim_level := 0 }

/-- The specification's epoch WER sequence 0.50, 0.49, 0.49, 0.49. -/
def c1evalF : ℕ → ℚ :=
  fun n => [(1 : ℚ)/2, 49/100, 49/100, 49/100].getD n 0

/-- Same configuration with a larger epoch budget, for a WER sequence
that degrades by at least 0.01 each epoch. -/
def c1argsB : Args :=
  { c1args with num_epochs := 10 }

/-- An epoch WER sequence 0.50, 0.51, 0.52, 0.53 degrading by 0.01
every epoch after the first. -/
def c1evalFB : ℕ → ℚ :=
  fun n => [(1 : ℚ)/2, 51/100, 52/100, 53/100].getD n 0

/-- Step-budget configuration of the specification: max_steps = 100,
max_epochs = 50, and an epoch of 150 micro-batches so that the budget
is hit mid-epoch. -/
def c6args : Args :=
  { gradient_accumulation_steps := 1, train_frequency := 25, eval_frequency := 200,
    save_after_each_epoch := false, early_stop_patience := 3, num_steps := some 100,
    num_epochs := 50, start_epoch := 0, step_per_epoch := 150,
    output_dir := "latest_dir", best_dir := "best_dir", optim_level := 0 }

/-- Per-interval evaluation configuration whose eval interval (10)
exceeds the 5 optimizer steps of an epoch, so no evaluation ever runs
before the epoch boundary is reached. -/
def c10args : Args :=
  { gradient_accumulation_steps := 1, train_frequency := 25, eval_frequency := 10,
    save_after_each_epoch := false, early_stop_patience := 3, num_steps := none,
    num_epochs := 5, start_epoch := 0, step_per_epoch := 5,
    output_dir := "latest_dir", best_dir := "best_dir", optim_level := 0 }

/-- A gradient-accumulation configuration with
gradient_accumulation_steps = 2 and no step budget. -/
def c5args : Args :=
  { gradient_accumulation_steps := 2, train_frequency := 25, eval_frequency := 200,
    save_after_each_epoch := true, early_stop_patience := 3, num_steps := none,
    num_epochs := 4, start_epoch := 0, step_per_epoch := 1,
    output_dir := "latest_dir", best_dir := "best_dir", optim_level := 0 }

/-- A small step-budget configuration: max_steps = 2 with a 3-batch
epoch. -/
def c6argsW : Args :=
  { gradient_accumulation_steps := 1, train_frequency := 25, eval_frequency := 200,
    save_after_each_epoch := false, early_stop_patience := 3, num_steps := some 2,
    num_epochs := 50, start_epoch := 0, step_per_epoch := 3,
    output_dir := "latest_dir", best_dir := "best_dir", optim_level := 0 }

/-! Helper lemmas about the filesystem model. -/

lemma os_makedirs_files (d : String) (fs : FS) : (os_makedirs d fs).files = fs.files := by
  unfold os_makedirs
  split <;> rfl

lemma readFile_writeFile (p : String) (c : Checkpoint) :
    ∀ l, readFile p (writeFile p c l) = some c := by
  intro l
  induction l with
  | nil => simp [writeFile, readFile]
  | cons hd tl ih =>
    obtain ⟨q, c'⟩ := hd
    by_cases hq : q = p
    · subst hq
      simp [writeFile, readFile]
    · simp [writeFile, readFile, hq, ih]

lemma save_dirs (rank : Option ℕ) (cn : String) (ms os e : ℕ) (dir : String) (b : Bool)
    (fs : FS) : (save rank cn ms os e dir b fs).dirs = (os_makedirs dir fs).dirs := by
  by_cases hco : rank = none ∨ rank = some 0 <;> simp [save, hco]

lemma save_files_coordinator (rank : Option ℕ) (cn : String) (ms os e : ℕ) (dir : String)
    (b : Bool) (fs : FS) (hco : rank = none ∨ rank = some 0) :
    (save rank cn ms os e dir b fs).files =
      writeFile (dir ++ "/" ++ (cn ++ ".pt"))
        { epoch := e, state_dict := ms, optimizer := if b then some os else none }
        fs.files := by
  unfold save
  rw [if_pos hco]
  simp [os_makedirs_files]

/-- C7: save creates the destination directory when absent (and leaves
the directory set unchanged when it exists), writes the checkpoint to
the fixed file name class_name ++ ".pt" under the destination so that
a later save to the same destination overwrites the earlier one, and
the persisted checkpoint omits the optimizer state when
save_optimizer is false (the "best" saves) while including it
alongside epoch and model state when save_optimizer is true (the
"latest" epoch saves). -/
theorem claim_C7 (fs : FS) (rank : Option ℕ) (cn dir : String)
    (ms ms' os os' e e' : ℕ) (b b' : Bool)
    (hco : rank = none ∨ rank = some 0) :
    dir ∈ (save rank cn ms os e dir b fs).dirs ∧
    (dir ∈ fs.dirs → (save rank cn ms os e dir b fs).dirs = fs.dirs) ∧
    readFile (dir ++ "/" ++ (cn ++ ".pt"))
        (save rank cn ms' os' e' dir b' (save rank cn ms os e dir b fs)).files =
      some { epoch := e', state_dict := ms', optimizer := if b' then some os' else none } ∧
    readFile (dir ++ "/" ++ (cn ++ ".pt")) (save rank cn ms os e dir false fs).files =
      some { epoch := e, state_dict := ms, optimizer := none } ∧
    readFile (dir ++ "/" ++ (cn ++ ".pt")) (save rank cn ms os e dir true fs).files =
      some { epoch := e, state_dict := ms, optimizer := some os } := by
  refine ⟨?_, ?_, ?_, ?_, ?_⟩
  · rw [save_dirs]
    unfold os_makedirs
    by_cases hd : dir ∈ fs.dirs <;> simp [hd]
  · intro hd
    rw [save_dirs]
    simp [os_makedirs, hd]
  · rw [save_files_coordinator _ _ _ _ _ _ _ _ hco, readFile_writeFile]
  · rw [save_files_coordinator _ _ _ _ _ _ _ _ hco, readFile_writeFile]
    simp
  · rw [save_files_coordinator _ _ _ _ _ _ _ _ hco, readFile_writeFile]
    simp

/-- C7 witness: the sole-process case at concrete inputs. -/
theorem claim_C7_witness :
    let fs0 : FS := { dirs := [], files := [] }
    "d" ∈ (save none "Jasper" 1 2 3 "d" true fs0).dirs ∧
    readFile ("d" ++ "/" ++ ("Jasper" ++ ".pt"))
        (save none "Jasper" 4 5 6 "d" true (save none "Jasper" 1 2 3 "d" true fs0)).files =
      some { epoch := 6, state_dict := 4, optimizer := some 5 } := by
  have h := claim_C7 { dirs := [], files := [] } none "Jasper" "d" 1 4 2 5 3 6 true true
    (Or.inl rfl)
  exact ⟨h.1, by simpa using h.2.2.1⟩

/-- C8: in a distributed run only rank 0, or the sole process in
non-distributed mode, performs the checkpoint file write inside save;
a save call on any worker of nonzero rank leaves the files unchanged. -/
theorem claim_C8 (fs : FS) (r : ℕ) (cn dir : String) (ms os e : ℕ) (b : Bool)
    (hr : r ≠ 0) :
    (save (some r) cn ms os e dir b fs).files = fs.files ∧
    readFile (dir ++ "/" ++ (cn ++ ".pt")) (save none cn ms os e dir b fs).files =
      some { epoch := e, state_dict := ms, optimizer := if b then some os else none } ∧
    readFile (dir ++ "/" ++ (cn ++ ".pt")) (save (some 0) cn ms os e dir b fs).files =
      some { epoch := e, state_dict := ms, optimizer := if b then some os else none } := by
  refine ⟨?_, ?_, ?_⟩
  · unfold save
    rw [if_neg]
    · exact os_makedirs_files dir fs
    · simp [hr]
  · rw [save_files_coordinator _ _ _ _ _ _ _ _ (Or.inl rfl), readFile_writeFile]
  · rw [save_files_coordinator _ _ _ _ _ _ _ _ (Or.inr rfl), readFile_writeFile]

/-- C8 witness: rank 2 skips the write at concrete inputs. -/
theorem claim_C8_witness :
    (save (some 2) "Jasper" 1 2 3 "d" true { dirs := [], files := [] }).files = [] := by
  have h := claim_C8 { dirs := [], files := [] } 2 "Jasper" "d" 1 2 3 true (by norm_num)
  exact h.1

/-- C9: with a checkpoint loaded and the resume flag set, main restores
start_epoch from the checkpoint and the training loop initializes its
epoch to it and its global step counter to start_epoch *
step_per_epoch; without the resume flag, or without a checkpoint, the
start epoch is 0 (and then the initial step is 0). -/
theorem claim_C9 (c : Checkpoint) (args : Args) (b : Bool) :
    resolveStartEpoch (some c) true = c.epoch ∧
    (initState { args with start_epoch := resolveStartEpoch (some c) true }).epoch = c.epoch ∧
    (initState { args with start_epoch := resolveStartEpoch (some c) true }).step =
      c.epoch * args.step_per_epoch ∧
    resolveStartEpoch (some c) false = 0 ∧
    resolveStartEpoch none b = 0 ∧
    (initState { args with start_epoch := 0 }).step = 0 := by
  simp [initState, resolveStartEpoch]

/-- C2 counterexample: no ConfigurationError is raised anywhere.  With
total_steps = 0 the quadratic policy fails with ZeroDivisionError, not
ConfigurationError; and with warmup_steps = floor(0.1 * 5) = 0 but
total_steps = 5 the warmup policy does not fail at all: it silently
skips the warmup branch (the 1-indexed step is at least 1 > 0) and
returns the decay value 4/5. -/
theorem claim_C2_counterexample :
    lr_policy 1 0 0 ≠ Except.error PyError.configuration ∧
    warmup_decay_policy 1 0 5 = Except.ok (4 / 5) := by
  constructor
  · intro h
    simp [lr_policy] at h
  · norm_num [warmup_decay_policy]

/-- C2 (amended): calling a policy with a zero denominator fails with a
plain ZeroDivisionError, never a ConfigurationError: the quadratic
policy with total_steps = 0 and the warmup policy with total_steps = 0
both raise ZeroDivisionError; but the warmup policy with
warmup_steps = floor(0.1 * total_steps) = 0 and total_steps > 0
silently handles the degenerate case by skipping the warmup branch and
returning the decay-branch value. -/
theorem claim_C2 (initial_lr : ℚ) (step : ℕ) :
    lr_policy initial_lr step 0 = Except.error PyError.zeroDivision ∧
    warmup_decay_policy initial_lr step 0 = Except.error PyError.zeroDivision ∧
    (∀ N : ℕ, 0 < N → N / 10 = 0 →
      warmup_decay_policy initial_lr step N =
        Except.ok (max (initial_lr * (((N : ℚ) - ((step + 1 : ℕ) : ℚ)) / ((N : ℕ) : ℚ)))
          (1 / 10 ^ 10))) := by
  refine ⟨rfl, ?_, ?_⟩
  · simp [warmup_decay_policy]
  · intro N hN h0
    simp [warmup_decay_policy, h0, Nat.pos_iff_ne_zero.mp hN]

/-- C2 witness: the amended claim at initial_lr = 1, step = 0, N = 5. -/
theorem claim_C2_witness :
    lr_policy 1 0 0 = Except.error PyError.zeroDivision ∧
    warmup_decay_policy 1 0 0 = Except.error PyError.zeroDivision ∧
    warmup_decay_policy 1 0 5 =
      Except.ok (max ((1 : ℚ) * (((5 : ℚ) - (((0 : ℕ) + 1 : ℕ) : ℚ)) / ((5 : ℕ) : ℚ)))
        (1 / 10 ^ 10)) :=
  ⟨(claim_C2 1 0).1, (claim_C2 1 0).2.1, (claim_C2 1 0).2.2 5 (by norm_num) (by norm_num)⟩

/-- C3 counterexample: the floor is not returned for every step ≥
total_steps.  At step = 11 with total_steps = 10 and initial_lr = 1
the squared term ((10 - 11)/10)^2 = 1/100 makes the policy return
1/100, not the floor 1e-10. -/
theorem claim_C3_counterexample :
    lr_policy 1 11 10 = Except.ok (1 / 100) ∧ ((1 : ℚ) / 100) ≠ 1 / 10 ^ 10 := by
  constructor
  · norm_num [lr_policy]
  · norm_num

/-- C3 (amended): for total_steps > 0 the quadratic-decay policy
returns max(initial_lr * ((total_steps - step)/total_steps)^2, 1e-10)
for every step; for nonnegative initial_lr it is monotonically
non-increasing on 1 ≤ step ≤ total_steps; and it returns the floor
1e-10 at step = total_steps (but not for every step beyond: past the
horizon the squared term grows again, see the counterexample). -/
theorem claim_C3 (initial_lr : ℚ) (N : ℕ) (hN : 0 < N) (hlr : 0 ≤ initial_lr) :
    (∀ step : ℕ, lr_policy initial_lr step N =
      Except.ok (max (initial_lr * (((N : ℚ) - (step : ℚ)) / (N : ℚ)) ^ 2) (1 / 10 ^ 10))) ∧
    (∀ step : ℕ, 1 ≤ step → step ≤ N →
      lrValue (lr_policy initial_lr step N) ≤ lrValue (lr_policy initial_lr (step - 1) N)) ∧
    lr_policy initial_lr N N = Except.ok (1 / 10 ^ 10) := by
  have hN0 : N ≠ 0 := Nat.pos_iff_ne_zero.mp hN
  have hNq : (0 : ℚ) < (N : ℚ) := by exact_mod_cast hN
  refine ⟨?_, ?_, ?_⟩
  · intro step
    simp [lr_policy, hN0]
  · intro step h1 h2
    simp only [lr_policy, hN0, if_neg, ite_false, lrValue]
    have hc : ((step - 1 : ℕ) : ℚ) = (step : ℚ) - 1 := by
      push_cast [h1]
      ring
    rw [hc]
    have hs : (step : ℚ) ≤ (N : ℚ) := by exact_mod_cast h2
    gcongr
    all_goals first
      | exact div_nonneg (by linarith) hNq.le
      | linarith
  · simp [lr_policy, hN0, sub_self]

/-- C3 witness: the amended claim at initial_lr = 1, N = 10. -/
theorem claim_C3_witness :
    lr_policy 1 10 10 = Except.ok (1 / 10 ^ 10) ∧
    lrValue (lr_policy 1 5 10) ≤ lrValue (lr_policy 1 4 10) := by
  have h := claim_C3 1 10 (by norm_num) (by norm_num)
  exact ⟨h.2.2, by simpa using h.2.1 5 (by norm_num) (by norm_num)⟩

/-- C4: with warmup_steps = floor(0.1 * total_steps) > 0 and a
positive initial_lr, the warmup policy returns
initial_lr * (s / warmup_steps) for the 1-indexed step s = step + 1
when s ≤ warmup_steps, and
max(initial_lr * (total_steps - s) / (total_steps - warmup_steps), 1e-10)
otherwise; the returned value is strictly increasing for
step < warmup_steps and equals exactly initial_lr at
step = warmup_steps - 1. -/
theorem claim_C4 (initial_lr : ℚ) (N : ℕ) (hw : 0 < N / 10) (hlr : 0 < initial_lr) :
    (∀ step : ℕ, step + 1 ≤ N / 10 →
      warmup_decay_policy initial_lr step N =
        Except.ok (initial_lr * (((step + 1 : ℕ) : ℚ) / ((N / 10 : ℕ) : ℚ)))) ∧
    (∀ step : ℕ, N / 10 < step + 1 →
      warmup_decay_policy initial_lr step N =
        Except.ok (max (initial_lr *
            (((N : ℚ) - ((step + 1 : ℕ) : ℚ)) / ((N - N / 10 : ℕ) : ℚ))) (1 / 10 ^ 10))) ∧
    (∀ i j : ℕ, i < j → j + 1 ≤ N / 10 →
      lrValue (warmup_decay_policy initial_lr i N) <
        lrValue (warmup_decay_policy initial_lr j N)) ∧
    warmup_decay_policy initial_lr (N / 10 - 1) N = Except.ok initial_lr := by
  have hw0 : N / 10 ≠ 0 := Nat.pos_iff_ne_zero.mp hw
  have h10 : 10 ≤ N := by
    by_contra h
    push_neg at h
    simp [Nat.div_eq_of_lt h] at hw
  have hrem : N - N / 10 ≠ 0 := by
    have : N / 10 < N := Nat.div_lt_self (by omega) (by norm_num)
    omega
  have hformula : ∀ step : ℕ, step + 1 ≤ N / 10 →
      warmup_decay_policy initial_lr step N =
        Except.ok (initial_lr * (((step + 1 : ℕ) : ℚ) / ((N / 10 : ℕ) : ℚ))) := by
    intro step h
    simp [warmup_decay_policy, h, hw0]
  refine ⟨hformula, ?_, ?_, ?_⟩
  · intro step h
    have h' : ¬ (step + 1 ≤ N / 10) := by omega
    simp [warmup_decay_policy, h', hrem]
  · intro i j hij hj
    rw [hformula i (by omega), hformula j hj]
    simp only [lrValue]
    have hwq : (0 : ℚ) < ((N / 10 : ℕ) : ℚ) := by exact_mod_cast hw
    apply mul_lt_mul_of_pos_left _ hlr
    exact (div_lt_div_iff_of_pos_right hwq).mpr (by exact_mod_cast Nat.succ_lt_succ hij)
  · have heq : N / 10 - 1 + 1 = N / 10 := by omega
    rw [hformula (N / 10 - 1) (by omega), heq]
    rw [div_self (by exact_mod_cast hw0), mul_one]

/-- C4 witness: the claim at initial_lr = 1, N = 20 (warmup_steps = 2):
the ramp is strictly increasing on steps 0, 1 and reaches exactly 1 at
step = warmup_steps - 1 = 1. -/
theorem claim_C4_witness :
    warmup_decay_policy 1 1 20 = Except.ok 1 ∧
    lrValue (warmup_decay_policy 1 0 20) < lrValue (warmup_decay_policy 1 1 20) := by
  have h := claim_C4 1 20 (by norm_num) (by norm_num)
  exact ⟨by simpa using h.2.2.2, h.2.2.1 0 1 (by norm_num) (by norm_num)⟩

/-- C1 counterexample: on the spec's own scenario the code behaves
differently.  Running the loop with epoch WERs 0.50, 0.49, 0.49, 0.49,
early_stop_patience = 3 and per-epoch evaluation, the run completes
all 4 epochs and exits with the epoch-count break (not early
stopping), the final patience is 0, and eval() ran 4 times (epoch 4's
body did execute).  Moreover at the epoch-2 comparison (WER 0.49
against best 0.50) the patience counter resets to 0 instead of
incrementing, because the code resets whenever e_wer <
prev_best_epoch_wer + 0.01, which 0.49 < 0.50 + 0.01 satisfies. -/
theorem claim_C1_counterexample :
    runExit (trainLoop c1args c1evalF [0] 10 (initState c1args)) = some ExitReason.done ∧
    (runFinal (trainLoop c1args c1evalF [0] 10 (initState c1args))).map TrainState.patience =
      some 0 ∧
    (runFinal (trainLoop c1args c1evalF [0] 10 (initState c1args))).map TrainState.eval_count =
      some 4 ∧
    (earlyStopUpdate c1args (49 / 100)
        { epoch := 2, step := 2, patience := 0, prev_best_wer := 10000,
          prev_best_epoch_wer := 1 / 2, e_wer := some (1 / 2), eval_count := 1,
          saves := [] }).1.patience = 0 := by
  refine ⟨?_, ?_, ?_, ?_⟩
  · norm_num [trainLoop, runBatches, processBatch, optBoundary, epochEnd, epochBoundaryState, earlyStopUpdate,
              initLoopState, initState, c1args, c1evalF, stepsReached, runExit]
  · norm_num [trainLoop, runBatches, processBatch, optBoundary, epochEnd, epochBoundaryState, earlyStopUpdate,
              initLoopState, initState, c1args, c1evalF, stepsReached, runFinal]
  · norm_num [trainLoop, runBatches, processBatch, optBoundary, epochEnd, epochBoundaryState, earlyStopUpdate,
              initLoopState, initState, c1args, c1evalF, stepsReached, runFinal]
  · norm_num [earlyStopUpdate, c1args]

/-- C1 (amended): at every epoch boundary the patience counter resets
to 0 when the epoch WER is below best_epoch_metric + 0.01 (within the
0.01 tolerance of the best, or better), and otherwise (WER at least
best + 0.01, a degradation) increments, stopping the run when it
reaches early_stop_patience.  Consequently for the WER sequence
[0.50, 0.49, 0.49, 0.49] with patience 3 the run never increments
patience and completes all 4 epochs (no early stop), while for the
degrading sequence [0.50, 0.51, 0.52, 0.53] the run early-stops at the
end of the 4th epoch. -/
theorem claim_C1 (args : Args) (w : ℚ) (ts : TrainState) :
    ((w < ts.prev_best_epoch_wer + 1 / 100 →
        (earlyStopUpdate args w ts).1.patience = 0 ∧ (earlyStopUpdate args w ts).2 = false) ∧
     (ts.prev_best_epoch_wer + 1 / 100 ≤ w →
        (earlyStopUpdate args w ts).1.patience = ts.patience + 1 ∧
        ((earlyStopUpdate args w ts).2 = true ↔ args.early_stop_patience ≤ ts.patience + 1))) ∧
    runExit (trainLoop c1args c1evalF [0] 10 (initState c1args)) = some ExitReason.done ∧
    (runFinal (trainLoop c1args c1evalF [0] 10 (initState c1args))).map TrainState.patience =
      some 0 ∧
    runExit (trainLoop c1argsB c1evalFB [0] 20 (initState c1argsB)) =
      some ExitReason.earlyStopped ∧
    (runFinal (trainLoop c1argsB c1evalFB [0] 20 (initState c1argsB))).map
      TrainState.eval_count = some 4 := by
  refine ⟨⟨?_, ?_⟩, ?_, ?_, ?_, ?_⟩
  · intro h
    simp only [earlyStopUpdate, if_pos h]
    constructor
    · split <;> first | rfl | (split <;> rfl)
    · trivial
  · intro h
    rw [earlyStopUpdate, if_neg (not_lt.mpr h)]
    simp
  · norm_num [trainLoop, runBatches, processBatch, optBoundary, epochEnd, epochBoundaryState, earlyStopUpdate,
              initLoopState, initState, c1args, c1evalF, stepsReached, runExit]
  · norm_num [trainLoop, runBatches, processBatch, optBoundary, epochEnd, epochBoundaryState, earlyStopUpdate,
              initLoopState, initState, c1args, c1evalF, stepsReached, runFinal]
  · norm_num [trainLoop, runBatches, processBatch, optBoundary, epochEnd, epochBoundaryState, earlyStopUpdate,
              initLoopState, initState, c1argsB, c1args, c1evalFB, stepsReached, runExit]
  · norm_num [trainLoop, runBatches, processBatch, optBoundary, epochEnd, epochBoundaryState, earlyStopUpdate,
              initLoopState, initState, c1argsB, c1args, c1evalFB, stepsReached, runFinal]

/-- C1 witness: the amended patience law at a concrete degrading input
(WER 0.53 against best 0.50 with patience 2 and limit 3). -/
theorem claim_C1_witness :
    (earlyStopUpdate c1args (53 / 100)
        { epoch := 3, step := 3, patience := 2, prev_best_wer := 10000,
          prev_best_epoch_wer := 1 / 2, e_wer := some (52 / 100), eval_count := 3,
          saves := [] }).1.patience = 2 + 1 ∧
    ((earlyStopUpdate c1args (53 / 100)
        { epoch := 3, step := 3, patience := 2, prev_best_wer := 10000,
          prev_best_epoch_wer := 1 / 2, e_wer := some (52 / 100), eval_count := 3,
          saves := [] }).2 = true ↔ c1args.early_stop_patience ≤ 2 + 1) :=
  (claim_C1 c1args (53 / 100)
    { epoch := 3, step := 3, patience := 2, prev_best_wer := 10000,
      prev_best_epoch_wer := 1 / 2, e_wer := some (52 / 100), eval_count := 3,
      saves := [] }).1.2 (by norm_num)

/-- C10: in per-interval evaluation mode (save_after_each_epoch false)
with eval interval 10 exceeding the 5 optimizer steps of the epoch, no
evaluation ever runs, and the epoch-end improvement comparison reads
the evaluation variable e_wer before any assignment: the run dies with
Python's unbound-local error on e_wer instead of completing the
epoch-boundary logic. -/
theorem claim_C10 :
    runError (trainLoop c10args (fun _ => 0) (List.replicate 5 0) 10 (initState c10args)) =
      some (PyError.unboundLocal "e_wer") := by
  norm_num [trainLoop, runBatches, processBatch, optBoundary, epochEnd, epochBoundaryState, earlyStopUpdate,
            initLoopState, initState, c10args, stepsReached, runError, List.replicate]

/-! Helper lemmas about the training loop model. -/

lemma optBoundary_step (args : Args) (evalF : ℕ → ℚ) (ts : TrainState) :
    (optBoundary args evalF ts).step = ts.step + 1 := by
  simp only [optBoundary]
  split
  · split <;> rfl
  · rfl

lemma optBoundary_epoch (args : Args) (evalF : ℕ → ℚ) (ts : TrainState) :
    (optBoundary args evalF ts).epoch = ts.epoch := by
  simp only [optBoundary]
  split
  · split <;> rfl
  · rfl

lemma runBatches_broke (args : Args) (evalF : ℕ → ℚ) (losses : List ℚ) (s : LoopState)
    (h : s.broke = true) : runBatches args evalF losses s = s := by
  cases losses with
  | nil => rfl
  | cons l rest => simp [runBatches, h]

lemma processBatch_budget (args : Args) (evalF : ℕ → ℚ) (m : ℕ)
    (hns : args.num_steps = some m) (loss : ℚ) (s : LoopState)
    (hb : s.broke = false) (h : s.ts.step < m) :
    ((processBatch args evalF loss s).broke = false →
      (processBatch args evalF loss s).ts.step < m) ∧
    ((processBatch args evalF loss s).broke = true →
      (processBatch args evalF loss s).ts.step = m) := by
  simp only [processBatch]
  split
  · simp only [stepsReached, hns, optBoundary_step]
    constructor
    · intro hb'
      simp only [decide_eq_false_iff_not, not_le] at hb'
      exact hb'
    · intro hb'
      simp only [decide_eq_true_eq] at hb'
      omega
  · exact ⟨fun _ => h, fun hb' => by simp [hb] at hb'⟩

lemma runBatches_budget (args : Args) (evalF : ℕ → ℚ) (m : ℕ)
    (hns : args.num_steps = some m) :
    ∀ (losses : List ℚ) (s : LoopState),
      (s.broke = false → s.ts.step < m) → (s.broke = true → s.ts.step = m) →
      ((runBatches args evalF losses s).broke = false →
        (runBatches args evalF losses s).ts.step < m) ∧
      ((runBatches args evalF losses s).broke = true →
        (runBatches args evalF losses s).ts.step = m) := by
  intro losses
  induction losses with
  | nil => intro s h1 h2; exact ⟨h1, h2⟩
  | cons l rest ih =>
    intro s h1 h2
    by_cases hb : s.broke = true
    · rw [runBatches, if_pos hb]
      exact ⟨h1, h2⟩
    · rw [Bool.not_eq_true] at hb
      rw [runBatches, if_neg (by simp [hb])]
      have hp := processBatch_budget args evalF m hns l s hb (h1 hb)
      exact ih (processBatch args evalF l s) hp.1 hp.2

lemma earlyStopUpdate_step (args : Args) (w : ℚ) (ts : TrainState) :
    (earlyStopUpdate args w ts).1.step = ts.step := by
  simp only [earlyStopUpdate]
  split
  · split
    · split <;> rfl
    · rfl
  · rfl

lemma epochBoundaryState_step (args : Args) (evalF : ℕ → ℚ) (ts0 : TrainState) :
    (epochBoundaryState args evalF ts0).step = ts0.step := by
  simp only [epochBoundaryState]
  split <;> rfl

lemma epochEnd_ok (args : Args) (evalF : ℕ → ℚ) (ts : TrainState) (ts2 : TrainState)
    (o : Option ExitReason) (h : epochEnd args evalF ts = Except.ok (ts2, o)) :
    ts2.step = ts.step ∧
    (∀ x, o = some x →
      x = ExitReason.earlyStopped ∨ (x = ExitReason.done ∧ args.num_steps = none)) := by
  simp only [epochEnd] at h
  split at h
  · cases h
  case _ w hw =>
    split at h
    · rw [Except.ok.injEq, Prod.mk.injEq] at h
      obtain ⟨h1, h2⟩ := h
      subst h1
      refine ⟨?_, ?_⟩
      · rw [earlyStopUpdate_step, epochBoundaryState_step]
      · intro x hx
        rw [← h2] at hx
        cases hx
        exact Or.inl rfl
    · split at h
      case _ hcond =>
        rw [Except.ok.injEq, Prod.mk.injEq] at h
        obtain ⟨h1, h2⟩ := h
        subst h1
        refine ⟨?_, ?_⟩
        · rw [earlyStopUpdate_step, epochBoundaryState_step]
        · intro x hx
          rw [← h2] at hx
          cases hx
          exact Or.inr ⟨rfl, hcond.1⟩
      · rw [Except.ok.injEq, Prod.mk.injEq] at h
        obtain ⟨h1, h2⟩ := h
        subst h1
        refine ⟨?_, ?_⟩
        · rw [earlyStopUpdate_step, epochBoundaryState_step]
        · intro x hx
          rw [← h2] at hx
          cases hx

lemma trainLoop_budget (args : Args) (evalF : ℕ → ℚ) (batches : List ℚ) (m : ℕ)
    (hns : args.num_steps = some m) :
    ∀ (fuel : ℕ) (ts r : TrainState) (reason : ExitReason), ts.step < m →
      trainLoop args evalF batches fuel ts = some (Except.ok (r, reason)) →
      (reason = ExitReason.stepBudget ∧ r.step = m) ∨
      (reason = ExitReason.earlyStopped ∧ r.step < m) := by
  intro fuel
  induction fuel with
  | zero => intro ts r reason _ h; cases h
  | succ fuel ih =>
    intro ts r reason hstep h
    simp only [trainLoop] at h
    have hinv := runBatches_budget args evalF m hns batches (initLoopState ts)
      (fun _ => hstep) (fun hb => by simp [initLoopState] at hb)
    split at h
    case _ hreached =>
      rw [Option.some.injEq, Except.ok.injEq, Prod.mk.injEq] at h
      obtain ⟨h1, h2⟩ := h
      subst h1
      subst h2
      left
      refine ⟨rfl, ?_⟩
      rw [hns] at hreached
      simp only [stepsReached, decide_eq_true_eq] at hreached
      cases hb : (runBatches args evalF batches (initLoopState ts)).broke with
      | false => exact absurd hreached (not_le.mpr (hinv.1 hb))
      | true => exact hinv.2 hb
    case _ hreached =>
      rw [hns] at hreached
      simp only [stepsReached, decide_eq_true_eq] at hreached
      have hlt : (runBatches args evalF batches (initLoopState ts)).ts.step < m :=
        not_le.mp hreached
      split at h
      · cases h
      case _ ts2 reason' heq =>
        rw [Option.some.injEq, Except.ok.injEq, Prod.mk.injEq] at h
        obtain ⟨h1, h2⟩ := h
        subst h1
        subst h2
        have hok := epochEnd_ok args evalF _ _ _ heq
        rcases hok.2 reason' rfl with hx | hx
        · right
          exact ⟨hx, by rw [hok.1]; exact hlt⟩
        · rw [hx.2] at hns
          cases hns
      case _ ts2 heq =>
        have hok := epochEnd_ok args evalF _ _ _ heq
        exact ih ts2 r reason (by rw [hok.1]; exact hlt) h

lemma runBatches_epoch (args : Args) (evalF : ℕ → ℚ) :
    ∀ (losses : List ℚ) (s : LoopState),
      (runBatches args evalF losses s).ts.epoch = s.ts.epoch := by
  intro losses
  induction losses with
  | nil => intro s; rfl
  | cons l rest ih =>
    intro s
    by_cases hb : s.broke = true
    · rw [runBatches, if_pos hb]
    · rw [runBatches, if_neg hb, ih]
      simp only [processBatch]
      split
      · exact optBoundary_epoch args evalF s.ts
      · rfl

lemma runBatches_reach (args : Args) (evalF : ℕ → ℚ) (m : ℕ)
    (hns : args.num_steps = some m) (hk : args.gradient_accumulation_steps = 1) :
    ∀ (losses : List ℚ) (s : LoopState), s.broke = false → s.ts.step < m →
      m ≤ s.ts.step + losses.length →
      (runBatches args evalF losses s).ts.step = m := by
  intro losses
  induction losses with
  | nil =>
    intro s _ h1 h2
    simp only [List.length_nil, Nat.add_zero] at h2
    omega
  | cons l rest ih =>
    intro s hb h1 h2
    rw [runBatches, if_neg (by simp [hb])]
    have hcb : (s.batch_counter + 1) % args.gradient_accumulation_steps = 0 := by
      rw [hk]
      omega
    have hstep : (processBatch args evalF l s).ts.step = s.ts.step + 1 := by
      simp only [processBatch, if_pos hcb]
      exact optBoundary_step args evalF s.ts
    have hbroke : (processBatch args evalF l s).broke =
        stepsReached args.num_steps (s.ts.step + 1) := by
      simp only [processBatch, if_pos hcb, optBoundary_step]
    by_cases hm : s.ts.step + 1 = m
    · have hb' : (processBatch args evalF l s).broke = true := by
        rw [hbroke, hns, hm]
        simp [stepsReached]
      rw [runBatches_broke args evalF rest _ hb', hstep, hm]
    · have hlt : s.ts.step + 1 < m := by omega
      have hb' : (processBatch args evalF l s).broke = false := by
        rw [hbroke, hns]
        simp [stepsReached]
        omega
      exact ih _ hb' (by rw [hstep]; exact hlt)
        (by rw [hstep]; simp only [List.length_cons] at h2; omega)

lemma runBatches_incomplete (args : Args) (evalF : ℕ → ℚ)
    (hk : 1 < args.gradient_accumulation_steps) (hol : args.optim_level ≤ 3) :
    ∀ (losses : List ℚ) (s : LoopState), s.broke = false →
      s.batch_counter + losses.length < args.gradient_accumulation_steps →
      runBatches args evalF losses s =
        { s with batch_counter := s.batch_counter + losses.length,
                 average_loss := s.average_loss +
                   (losses.map (fun l => l / (args.gradient_accumulation_steps : ℚ))).sum } := by
  intro losses
  induction losses with
  | nil =>
    intro s _ _
    obtain ⟨ts, bc, al, br, bw, oe⟩ := s
    simp [runBatches]
  | cons l rest ih =>
    intro s hb hlen
    simp only [List.length_cons] at hlen
    rw [runBatches, if_neg (by simp [hb])]
    have hmod : ¬ ((s.batch_counter + 1) % args.gradient_accumulation_steps = 0) := by
      rw [Nat.mod_eq_of_lt (by omega)]
      omega
    have hpb : processBatch args evalF l s =
        { s with batch_counter := s.batch_counter + 1,
                 average_loss := s.average_loss + l /
                   (args.gradient_accumulation_steps : ℚ) } := by
      simp only [processBatch, if_pos hk, if_pos hol, if_neg hmod]
    have ihs := ih (processBatch args evalF l s) (by rw [hpb]; exact hb) (by
      rw [hpb]
      show s.batch_counter + 1 + rest.length < args.gradient_accumulation_steps
      omega)
    rw [ihs, hpb]
    obtain ⟨ts, bc, al, br, bw, oe⟩ := s
    simp only [List.map_cons, List.sum_cons, List.append_assoc, List.singleton_append,
      List.length_cons, LoopState.mk.injEq]
    repeat' constructor
    all_goals first | rfl | trivial | omega | ring

lemma runBatches_chunk (args : Args) (evalF : ℕ → ℚ)
    (hk : 1 < args.gradient_accumulation_steps) (hns : args.num_steps = none)
    (hol : args.optim_level ≤ 3) :
    ∀ (chunk : List ℚ), 0 < chunk.length →
      ∀ (rest : List ℚ) (s : LoopState), s.broke = false →
        s.batch_counter + chunk.length = args.gradient_accumulation_steps →
        runBatches args evalF (chunk ++ rest) s =
          runBatches args evalF rest
            { ts := optBoundary args evalF s.ts, batch_counter := 0, average_loss := 0,
              broke := false,
              backward_calls := s.backward_calls,
              opt_events := s.opt_events ++
                [(s.ts.step, s.average_loss +
                  (chunk.map (fun l => l / (args.gradient_accumulation_steps : ℚ))).sum)] } := by
  intro chunk
  induction chunk with
  | nil => intro h; exact absurd h (by simp)
  | cons l chunk' ih =>
    intro _ rest s hb hlen
    simp only [List.length_cons] at hlen
    rw [List.cons_append, runBatches, if_neg (by simp [hb])]
    cases chunk' with
    | nil =>
      have hmod : (s.batch_counter + 1) % args.gradient_accumulation_steps = 0 := by
        rw [show s.batch_counter + 1 = args.gradient_accumulation_steps by
          simp only [List.length_nil] at hlen
          omega]
        exact Nat.mod_self _
      have hpb : processBatch args evalF l s =
          { ts := optBoundary args evalF s.ts, batch_counter := 0, average_loss := 0,
            broke := false,
            backward_calls := s.backward_calls,
            opt_events := s.opt_events ++
              [(s.ts.step, s.average_loss + l / (args.gradient_accumulation_steps : ℚ))] } := by
        simp only [processBatch, if_pos hk, if_pos hol, if_pos hmod, hns]
        rfl
      rw [List.nil_append, hpb]
      congr 1
      simp
    | cons l' chunk'' =>
      have hmod : ¬ ((s.batch_counter + 1) % args.gradient_accumulation_steps = 0) := by
        simp only [List.length_cons] at hlen
        rw [Nat.mod_eq_of_lt (by omega)]
        omega
      have hpb : processBatch args evalF l s =
          { s with batch_counter := s.batch_counter + 1,
                   average_loss := s.average_loss + l /
                     (args.gradient_accumulation_steps : ℚ) } := by
        simp only [processBatch, if_pos hk, if_pos hol, if_neg hmod]
      have ihs := ih (by simp) rest (processBatch args evalF l s) (by rw [hpb]; exact hb) (by
        rw [hpb]
        show s.batch_counter + 1 + (l' :: chunk'').length = args.gradient_accumulation_steps
        simp only [List.length_cons] at hlen ⊢
        omega)
      rw [ihs, hpb]
      congr 1
      obtain ⟨ts, bc, al, br, bw, oe⟩ := s
      simp only [List.map_cons, List.sum_cons, List.append_assoc, List.singleton_append,
        LoopState.mk.injEq, List.append_right_inj, List.cons.injEq, Prod.mk.injEq]
      repeat' constructor
      all_goals first | rfl | trivial | omega | ring

lemma windowEvents_length (k : ℕ) :
    ∀ (n : ℕ) (losses : List ℚ) (step : ℕ), losses.length = n →
      (windowEvents k step losses).length = n / k := by
  intro n
  induction n using Nat.strong_induction_on with
  | _ n ih =>
    intro losses step hlen
    by_cases h : k = 0 ∨ losses.length < k
    · rw [windowEvents, dif_pos h]
      rcases h with h | h
      · simp [h]
      · rw [hlen] at h
        simp [Nat.div_eq_of_lt h]
    · push_neg at h
      rw [windowEvents, dif_neg (by push_neg; exact h)]
      simp only [List.length_cons]
      rw [ih (n - k) (by omega) _ (step + 1) (by simp [hlen])]
      rw [show n / k = (n - k) / k + 1 from Nat.div_eq_sub_div (by omega) (by omega)]

lemma runBatches_window (args : Args) (evalF : ℕ → ℚ)
    (hk : 1 < args.gradient_accumulation_steps) (hns : args.num_steps = none)
    (hol : args.optim_level ≤ 3) :
    ∀ (n : ℕ) (losses : List ℚ) (s : LoopState), losses.length = n →
      s.batch_counter = 0 → s.average_loss = 0 → s.broke = false →
      (runBatches args evalF losses s).backward_calls = s.backward_calls ∧
      (runBatches args evalF losses s).opt_events =
        s.opt_events ++ windowEvents args.gradient_accumulation_steps s.ts.step losses ∧
      (runBatches args evalF losses s).ts.step =
        s.ts.step + losses.length / args.gradient_accumulation_steps ∧
      (runBatches args evalF losses s).batch_counter =
        losses.length % args.gradient_accumulation_steps := by
  intro n
  induction n using Nat.strong_induction_on with
  | _ n ih =>
    intro losses s hlen hbc hal hb
    by_cases hsmall : losses.length < args.gradient_accumulation_steps
    · rw [runBatches_incomplete args evalF hk hol losses s hb (by omega)]
      refine ⟨rfl, ?_, ?_, ?_⟩
      · rw [windowEvents, dif_pos (Or.inr hsmall)]
        simp
      · simp [Nat.div_eq_of_lt hsmall]
      · simp [Nat.mod_eq_of_lt hsmall, hbc]
    · push_neg at hsmall
      have hk0 : 0 < args.gradient_accumulation_steps := by omega
      have htk : (losses.take args.gradient_accumulation_steps).length =
          args.gradient_accumulation_steps := by
        rw [List.length_take]
        omega
      set s2 : LoopState :=
        { ts := optBoundary args evalF s.ts, batch_counter := 0, average_loss := 0,
          broke := false,
          backward_calls := s.backward_calls,
          opt_events := s.opt_events ++
            [(s.ts.step, s.average_loss +
              ((List.take args.gradient_accumulation_steps losses).map
                (fun l => l / (args.gradient_accumulation_steps : ℚ))).sum)] } with hs2
      have hL : runBatches args evalF losses s =
          runBatches args evalF (List.drop args.gradient_accumulation_steps losses) s2 := by
        conv_lhs =>
          rw [← List.take_append_drop args.gradient_accumulation_steps losses]
        exact runBatches_chunk args evalF hk hns hol
          (List.take args.gradient_accumulation_steps losses) (by rw [htk]; omega)
          (List.drop args.gradient_accumulation_steps losses) s hb (by rw [htk, hbc]; omega)
      have hih := ih ((List.drop args.gradient_accumulation_steps losses).length)
        (by rw [List.length_drop]; omega)
        (List.drop args.gradient_accumulation_steps losses) s2 rfl rfl rfl rfl
      rw [hL]
      obtain ⟨ihb, iho, ihs, ihc⟩ := hih
      refine ⟨?_, ?_, ?_, ?_⟩
      · rw [ihb, hs2]
      · rw [iho, hs2]
        rw [show windowEvents args.gradient_accumulation_steps s.ts.step losses =
            (s.ts.step, ((losses.take args.gradient_accumulation_steps).map
              (fun l => l / (args.gradient_accumulation_steps : ℚ))).sum) ::
            windowEvents args.gradient_accumulation_steps (s.ts.step + 1)
              (losses.drop args.gradient_accumulation_steps) from by
          rw [windowEvents, dif_neg (by push_neg; exact ⟨by omega, by omega⟩)]]
        simp only [optBoundary_step, hal, zero_add, List.append_assoc, List.singleton_append]
      · rw [ihs, hs2]
        simp only [optBoundary_step, List.length_drop]
        rw [show losses.length / args.gradient_accumulation_steps =
            (losses.length - args.gradient_accumulation_steps) /
              args.gradient_accumulation_steps + 1 from
          Nat.div_eq_sub_div hk0 (by omega)]
        ring
      · rw [ihc]
        simp only [List.length_drop]
        rw [show losses.length % args.gradient_accumulation_steps =
            (losses.length - args.gradient_accumulation_steps) %
              args.gradient_accumulation_steps from Nat.mod_eq_sub_mod (by omega)]

/-- C6: when a step budget max_steps is configured, the training loop
never exits through the epoch-count (max_epochs) condition: any
completed run either exits with the step-budget break exactly when the
global step counter reaches max_steps (breaking out of both the
micro-batch loop and the epoch loop), or early-stops strictly below the
budget.  In particular with max_steps = 100, max_epochs = 50 and a
150-micro-batch epoch, the run terminates at step = 100 while still
inside epoch 0 (mid-epoch). -/
theorem claim_C6 :
    (∀ (args : Args) (evalF : ℕ → ℚ) (batches : List ℚ) (m fuel : ℕ)
        (ts r : TrainState) (reason : ExitReason),
      args.num_steps = some m → ts.step < m →
      trainLoop args evalF batches fuel ts = some (Except.ok (r, reason)) →
      (reason = ExitReason.stepBudget ∧ r.step = m) ∨
      (reason = ExitReason.earlyStopped ∧ r.step < m)) ∧
    runExit (trainLoop c6args (fun _ => 0) (List.replicate 150 0) 5 (initState c6args)) =
      some ExitReason.stepBudget ∧
    (runFinal (trainLoop c6args (fun _ => 0) (List.replicate 150 0) 5 (initState c6args))).map
      TrainState.step = some 100 ∧
    (runFinal (trainLoop c6args (fun _ => 0) (List.replicate 150 0) 5 (initState c6args))).map
      TrainState.epoch = some 0 := by
  have hreach := runBatches_reach c6args (fun _ => 0) 100 rfl rfl (List.replicate 150 0)
    (initLoopState (initState c6args)) rfl
    (by norm_num [initLoopState, initState, c6args])
    (by simp [initLoopState, initState, c6args])
  have hepoch := runBatches_epoch c6args (fun _ => 0) (List.replicate 150 0)
    (initLoopState (initState c6args))
  have hrun : trainLoop c6args (fun _ => 0) (List.replicate 150 0) 5 (initState c6args) =
      some (Except.ok
        ((runBatches c6args (fun _ => 0) (List.replicate 150 0)
            (initLoopState (initState c6args))).ts, ExitReason.stepBudget)) := by
    rw [show (5 : ℕ) = 4 + 1 from rfl, trainLoop, hreach]
    simp [stepsReached, c6args]
  refine ⟨fun args evalF batches m fuel ts r reason hns hlt h =>
    trainLoop_budget args evalF batches m hns fuel ts r reason hlt h, ?_, ?_, ?_⟩
  · rw [hrun]
    rfl
  · rw [hrun]
    simp only [runFinal, Option.map_some']
    rw [hreach]
  · rw [hrun]
    simp only [runFinal, Option.map_some']
    rw [hepoch]
    rfl

/-- C5 (code bug): with gradient_accumulation_steps = k > 1 and no
step budget, every micro-batch loss is divided by k before being
added to the accumulated loss, and the optimizer step (together with
the global step increment and the buffer reset) fires exactly once
per k consecutive micro-batches, fed the sum of its window's k
normalized losses (the optimizer event log equals windowEvents, of
length len / k) — but the backward pass the claim speaks of never
happens: for every AMP optimization level whose backward branch is
skipped (0 <= optim_level <= 3, and main() only ever produces the
levels 0 and 1 = resolveOptimLevel fp16, both below 3) the backward
guard of finetune.py lines 243-248 takes the pass branch, so the
backward-call log stays empty and no loss is ever fed to a backward
pass at all. -/
theorem claim_C5 (args : Args) (evalF : ℕ → ℚ) (losses : List ℚ) (ts : TrainState)
    (hk : 1 < args.gradient_accumulation_steps) (hns : args.num_steps = none)
    (hol : args.optim_level ≤ 3) :
    (runBatches args evalF losses (initLoopState ts)).backward_calls = [] ∧
    (∀ fp16 : Bool, resolveOptimLevel fp16 ≤ 3) ∧
    (runBatches args evalF losses (initLoopState ts)).opt_events =
      windowEvents args.gradient_accumulation_steps ts.step losses ∧
    (runBatches args evalF losses (initLoopState ts)).opt_events.length =
      losses.length / args.gradient_accumulation_steps ∧
    (runBatches args evalF losses (initLoopState ts)).ts.step =
      ts.step + losses.length / args.gradient_accumulation_steps ∧
    (runBatches args evalF losses (initLoopState ts)).batch_counter =
      losses.length % args.gradient_accumulation_steps := by
  obtain ⟨hbw, ho, hs, hc⟩ := runBatches_window args evalF hk hns hol losses.length losses
    (initLoopState ts) rfl rfl rfl rfl
  refine ⟨?_, ?_, ?_, ?_, ?_, ?_⟩
  · simpa [initLoopState] using hbw
  · intro fp16
    cases fp16 <;> simp [resolveOptimLevel]
  · simpa [initLoopState] using ho
  · have hl := windowEvents_length args.gradient_accumulation_steps losses.length losses
      ts.step rfl
    rw [show (runBatches args evalF losses (initLoopState ts)).opt_events =
        windowEvents args.gradient_accumulation_steps ts.step losses from by
      simpa [initLoopState] using ho]
    exact hl
  · simpa [initLoopState] using hs
  · simpa [initLoopState] using hc

/-- C5 witness: k = 2 over the three losses 1, 2, 3 starting at step
0 with optim_level 0 (the non-fp16 level main() produces): no
backward call is made; one optimizer step fires (at step 0, fed
1/2 + 1 = 3/2); the step counter advances to 1 and one micro-batch
remains buffered. -/
theorem claim_C5_witness :
    (runBatches c5args (fun _ => 0) [1, 2, 3]
      (initLoopState (initState c5args))).backward_calls = [] ∧
    (runBatches c5args (fun _ => 0) [1, 2, 3] (initLoopState (initState c5args))).opt_events =
      [(0, 3 / 2)] ∧
    (runBatches c5args (fun _ => 0) [1, 2, 3] (initLoopState (initState c5args))).ts.step = 1 ∧
    (runBatches c5args (fun _ => 0) [1, 2, 3]
      (initLoopState (initState c5args))).batch_counter = 1 := by
  have h := claim_C5 c5args (fun _ => 0) [1, 2, 3] (initState c5args)
    (by norm_num [c5args]) rfl (by norm_num [c5args])
  refine ⟨h.1, ?_, ?_, ?_⟩
  · rw [h.2.2.1, windowEvents]
    norm_num [c5args, initState]
    rw [windowEvents]
    norm_num [c5args]
  · rw [h.2.2.2.2.1]
    norm_num [c5args, initState]
  · rw [h.2.2.2.2.2]
    norm_num [c5args]

/-- C6 witness: the general step-budget theorem applied to the
concrete run with max_steps = 2 over a 3-batch epoch. -/
theorem claim_C6_witness :
    (ExitReason.stepBudget = ExitReason.stepBudget ∧
      ({ epoch := 0, step := 2, patience := 0, prev_best_wer := 10000,
         prev_best_epoch_wer := 10000, e_wer := none, eval_count := 0,
         saves := [] } : TrainState).step = 2) ∨
    (ExitReason.stepBudget = ExitReason.earlyStopped ∧
      ({ epoch := 0, step := 2, patience := 0, prev_best_wer := 10000,
         prev_best_epoch_wer := 10000, e_wer := none, eval_count := 0,
         saves := [] } : TrainState).step < 2) :=
  claim_C6.1 c6argsW (fun _ => 0) [0, 0, 0] 2 1 (initState c6argsW)
    { epoch := 0, step := 2, patience := 0, prev_best_wer := 10000,
      prev_best_epoch_wer := 10000, e_wer := none, eval_count := 0, saves := [] }
    ExitReason.stepBudget rfl (by norm_num [initState, c6argsW])
    (by norm_num [trainLoop, runBatches, processBatch, optBoundary, initLoopState,
      initState, c6argsW, stepsReached])


end QuartznetFinetune
